import Mathlib

/-!
Verification model of the memory-scramble board in `src/Lab3/src/board.ts`.

Cards are allocated once at board construction, one per grid position, and are
mutated in place for the rest of the board's lifetime.  A card's identity is
therefore its creation position `(row, col)`: the `cards` field of `Board` is
the arena of all card objects, and each `grid` cell holds the identity of the
card object it references (or `none` after a matched pair is unlinked).
Mutation of a card object becomes a pointwise update of the `cards` function,
which models JavaScript reference aliasing exactly: every holder of the same
identity observes the update.

Operations are modelled as state transformers run to completion, one at a
time; errors thrown by the TypeScript code are returned alongside the mutated
state, because thrown exceptions in the source do not roll back prior
mutations.  The unbounded Rule 1-D poll loop, which cannot finish while the
contested card stays controlled by another player and no other operation
interleaves, is reported as the `blockedWaiting` outcome with the side effects
of its first iteration applied; its retry/timeout logic is modelled separately
by `waitLoop` over a time-indexed observation sequence.
-/

structure Card where
  value : String
  faceUp : Bool
  controller : Option String
  removed : Bool
  row : Nat
  col : Nat
  prevControlledBy : Option String
deriving DecidableEq, Repr

abbrev CardId := Nat × Nat

structure PlayerSt where
  firstCard : Option CardId := none
  secondCard : Option CardId := none
  previousFirstCard : Option CardId := none
  previousSecondCard : Option CardId := none
deriving DecidableEq, Repr

structure Board where
  height : Nat
  width : Nat
  cards : CardId → Card
  grid : CardId → Option CardId
  players : String → Option PlayerSt
  listeners : List String

/-- The `Board` constructor: every cell `(r, c)` receives a fresh face-down,
uncontrolled, unremoved card holding `vals (r, c)`, with `row`/`col` fixed to
its position.  The player registry starts empty and no watcher is pending. -/
def Board.make (h w : Nat) (vals : CardId → String) : Board where
  height := h
  width := w
  cards := fun id => ⟨vals id, false, none, false, id.1, id.2, none⟩
  grid := fun id => if id.1 < h ∧ id.2 < w then some id else none
  players := fun _ => none
  listeners := []

/-- In-place mutation of the card object `id` (all aliases observe it). -/
def Board.updateCard (b : Board) (id : CardId) (g : Card → Card) : Board :=
  { b with cards := fun j => if j = id then g (b.cards j) else b.cards j }

/-- Assignment to one grid cell (`this.grid[r][c] = ...`). -/
def Board.setGrid (b : Board) (pos : CardId) (v : Option CardId) : Board :=
  { b with grid := fun j => if j = pos then v else b.grid j }

/-- Mutation of the registry entry of player `pid`, when present. -/
def Board.updatePlayer (b : Board) (pid : String) (g : PlayerSt → PlayerSt) : Board :=
  { b with players := fun q => if q = pid then (b.players q).map g else b.players q }

/-- `notifyChange`: resolves and clears all pending `watch` listeners (the
snapshots handed to the resolved promises do not alter board state). -/
def Board.notifyChange (b : Board) : Board := { b with listeners := [] }

/-- `getOrCreatePlayer`: lazily registers a player entry on first use. -/
def Board.getOrCreatePlayer (b : Board) (pid : String) : Board :=
  match b.players pid with
  | some _ => b
  | none => { b with players := fun q => if q = pid then some {} else b.players q }

/-- `cardExists`: a live (present and not removed) card sits at `(r, c)`. -/
def Board.cardExists (b : Board) (r c : Nat) : Bool :=
  match b.grid (r, c) with
  | none => false
  | some id => !(b.cards id).removed

/-- Row-major enumeration of the grid positions. -/
def Board.rowMajor (b : Board) : List CardId :=
  (List.range b.height).flatMap fun r => (List.range b.width).map fun c => (r, c)

/-- The snapshot line `look` produces for one grid position. -/
def Board.cellLine (b : Board) (pid : String) (pos : CardId) : String :=
  match b.grid pos with
  | none => "none"
  | some id =>
    let cd := b.cards id
    if cd.removed then "none"
    else if !cd.faceUp then "down"
    else if cd.controller = some pid then "my " ++ cd.value
    else "up " ++ cd.value

/-- `look`: the textual snapshot, a `HEIGHTxWIDTH` header followed by one line
per cell in row-major order, every line newline-terminated. -/
def Board.look (b : Board) (pid : String) : String :=
  String.join (((toString b.height ++ "x" ++ toString b.width) ::
    b.rowMajor.map (b.cellLine pid)).map fun line => line ++ "\n")

/-- One card of the non-matching branch (3-B) of `finishPreviousPlay`: flip it
face down when face-up, unclaimed (or claimed by this player) and not
previously controlled by someone else, then drop any lingering control. -/
def Board.finishCardDown (b : Board) (pid : String) (cid? : Option CardId) : Board :=
  match cid? with
  | none => b
  | some id =>
    let cd := b.cards id
    if cd.removed then b
    else if b.grid (cd.row, cd.col) ≠ some id then b
    else
      let b1 :=
        if cd.faceUp ∧ (cd.controller = none ∨ cd.controller = some pid) ∧
            (cd.prevControlledBy = some pid ∨ cd.prevControlledBy = none) then
          (if cd.controller = none then b.updateCard id fun x => { x with faceUp := false }
           else b)
        else b
      if (b1.cards id).controller = some pid then
        b1.updateCard id fun x => { x with controller := none }
      else b1

/-- The matched branch (3-A) helper: unlink the card from the grid and flag it
removed, provided it is still on the grid and not already removed. -/
def Board.removeIfOnGrid (b : Board) (id : CardId) : Board :=
  let cd := b.cards id
  if ¬cd.removed ∧ b.grid (cd.row, cd.col) = some id then
    (b.setGrid (cd.row, cd.col) none).updateCard id fun x => { x with removed := true }
  else b

/-- The non-matching tail of `finishPreviousPlay`: handle both previous cards,
clear the previous pair, notify. -/
def Board.finishNonMatch (b : Board) (pid : String) (a? b? : Option CardId) : Board :=
  (((b.finishCardDown pid a?).finishCardDown pid b?).updatePlayer pid fun Q =>
    { Q with previousFirstCard := none, previousSecondCard := none }).notifyChange

/-- `finishPreviousPlay` (Rule 3): finalize the calling player's previous
completed attempt before a new flip is processed. -/
def Board.finishPreviousPlay (b : Board) (pid : String) : Board :=
  match b.players pid with
  | none => b
  | some P =>
    match P.previousFirstCard, P.previousSecondCard with
    | none, none => b
    | some aId, some bId =>
      if (b.cards aId).value = (b.cards bId).value then
        (((((b.removeIfOnGrid aId).removeIfOnGrid bId).updateCard aId
            (fun x => { x with controller := none })).updateCard bId
            (fun x => { x with controller := none })).updatePlayer pid
            (fun Q => { Q with previousFirstCard := none,
                               previousSecondCard := none })).notifyChange
      else b.finishNonMatch pid (some aId) (some bId)
    | a?, b? => b.finishNonMatch pid a? b?

inductive Err where
  | invalidArgument
  | outOfBounds
  | noCardAtLocation
  | secondCardNoCard
  | secondCardContested
  | blockedWaiting
deriving DecidableEq, Repr

/-- The shared failure path of Rules 2-A and 2-B: record the held first card
as the previous pair's first entry (second entry `none`), release control of
it when it is still on the grid (clearing `controller`, stamping
`prevControlledBy`, notifying), and clear the player's current first card. -/
def Board.relinquishFirst (b : Board) (pid : String) (fId : CardId) : Board :=
  let b1 := b.updatePlayer pid fun P =>
    { P with previousFirstCard := some fId, previousSecondCard := none }
  let f0 := b1.cards fId
  let b2 :=
    if ¬f0.removed ∧ b1.grid (f0.row, f0.col) = some fId then
      (b1.updateCard fId fun x =>
        { x with controller := none, prevControlledBy := some pid }).notifyChange
    else b1
  b2.updatePlayer pid fun P => { P with firstCard := none }

/-- Rule 1 of `flip` (the player holds no first card): fail on a missing or
removed card (1-A); otherwise flip a face-down card up and claim it (1-B),
claim a face-up uncontrolled card (1-C), or block waiting for a card
controlled by someone else (1-D), the three checks run in source order over
the card's current state. -/
def Board.flipRule1 (b : Board) (pid : String) (r c : Nat) : Board × Option Err :=
  match b.grid (r, c) with
  | none => (b, some .noCardAtLocation)
  | some id =>
    if (b.cards id).removed then (b, some .noCardAtLocation)
    else
      let b1 :=
        if !(b.cards id).faceUp then
          (((b.updateCard id fun cd => { cd with faceUp := true }).updatePlayer pid
            fun Q => { Q with firstCard := some id }).updateCard id
            fun cd => { cd with controller := some pid }).notifyChange
        else b
      let b2 :=
        if (b1.cards id).faceUp ∧ (b1.cards id).controller = none then
          ((b1.updatePlayer pid fun Q => { Q with firstCard := some id }).updateCard id
            fun cd => { cd with controller := some pid }).notifyChange
        else b1
      if (b2.cards id).faceUp ∧ (b2.cards id).controller ≠ some pid ∧
          (b2.cards id).controller ≠ none then
        (b2.notifyChange, some .blockedWaiting)
      else (b2, none)

/-- Rule 2 of `flip` (the player holds a first card and no second card):
relinquish and fail on a missing or removed target (2-A) or on a face-up
controlled target (2-B); otherwise turn the target face up if needed (2-C),
record the previous pair, and either keep control of both on a value match
(2-D) or release both with `prevControlledBy` stamped on a mismatch (2-E). -/
def Board.flipRule2 (b : Board) (pid : String) (fId : CardId) (r c : Nat) :
    Board × Option Err :=
  match b.grid (r, c) with
  | none => (b.relinquishFirst pid fId, some .secondCardNoCard)
  | some id =>
    if (b.cards id).removed then
      (b.relinquishFirst pid fId, some .secondCardNoCard)
    else if (b.cards id).faceUp ∧ (b.cards id).controller ≠ none then
      (b.relinquishFirst pid fId, some .secondCardContested)
    else
      let b1 := if !(b.cards id).faceUp then
          b.updateCard id fun cd => { cd with faceUp := true }
        else b
      let b2 := b1.notifyChange
      let b3 := b2.updatePlayer pid fun Q =>
        { Q with previousFirstCard := some fId, previousSecondCard := some id }
      if (b3.cards fId).value = (b3.cards id).value then
        ((((b3.updateCard id fun cd => { cd with controller := some pid }).updateCard
            fId fun cd => { cd with controller := some pid }).updatePlayer pid
            fun Q => { Q with firstCard := none, secondCard := none }).notifyChange,
          none)
      else
        let f0 := b3.cards fId
        let b4 := if ¬f0.removed ∧ b3.grid (f0.row, f0.col) = some fId then
            b3.updateCard fId fun cd =>
              { cd with controller := none, prevControlledBy := some pid }
          else b3
        let c0 := b4.cards id
        let b5 := if ¬c0.removed ∧ b4.grid (c0.row, c0.col) = some id then
            b4.updateCard id fun cd =>
              { cd with controller := none, prevControlledBy := some pid }
          else b4
        (((b5.updatePlayer pid fun Q =>
            { Q with firstCard := none, secondCard := none }).notifyChange), none)

/-- `flip`: register the player, bounds-check, finalize the previous attempt,
then run Rule 1 (no current first card) or Rule 2 (holding a first card).
The returned state carries all side effects committed before a failure. -/
def Board.flip (b : Board) (pid : String) (r c : Nat) : Board × Option Err :=
  let b := b.getOrCreatePlayer pid
  if b.height ≤ r ∨ b.width ≤ c then (b, some .outOfBounds)
  else
    let b := b.finishPreviousPlay pid
    match b.players pid with
    | none => (b, none)
    | some P =>
      match P.firstCard, P.secondCard with
      | none, _ => b.flipRule1 pid r c
      | some fId, none => b.flipRule2 pid fId r c
      | some _, some _ => (b, none)

/-- The player-id validation regex `^\w+$` used by `map` and `watch`. -/
def isValidId (pid : String) : Bool :=
  pid.length != 0 && pid.toList.all fun ch => ch.isAlphanum || ch == '_'

/-- The live value visible at a position, skipping empty cells and removed
cards (the snapshot loop of `map`). -/
def Board.liveValueAt (b : Board) (pos : CardId) : Option String :=
  match b.grid pos with
  | none => none
  | some id => if (b.cards id).removed then none else some (b.cards id).value

/-- The distinct live values in row-major first-occurrence order: the
insertion-ordered key set of `map`'s `valuePositions` table. -/
def Board.distinctValues (b : Board) : List String :=
  b.rowMajor.foldl (fun acc pos =>
    match b.liveValueAt pos with
    | none => acc
    | some v => if v ∈ acc then acc else acc ++ [v]) []

/-- The positions recorded for one distinct value in `map`'s snapshot. -/
def Board.positionsOf (b : Board) (v : String) : List CardId :=
  b.rowMajor.filter fun pos => b.liveValueAt pos == some v

/-- One cell of `map`'s rewrite loop: rewrite the referenced card to `w` when
the cell is live and the card still holds the original value `v`. -/
def Board.applyAt (b : Board) (v w : String) (pos : CardId) : Board :=
  match b.grid pos with
  | none => b
  | some id =>
    if (b.cards id).removed then b
    else if (b.cards id).value = v then b.updateCard id fun cd => { cd with value := w }
    else b

/-- `map`'s rewrite loop over the snapshot positions of one value. -/
def applyPositions (v w : String) : List CardId → Board → Board
  | [], b => b
  | pos :: ps, b => applyPositions v w ps (b.applyAt v w pos)

/-- `map`'s apply phase: one pass over the distinct values, committing the
rewrites of every successful transform and skipping the failed ones. -/
def mapApply (b0 : Board) (f : String → Except String String) :
    List String → Board → Board
  | [], b => b
  | v :: vs, b =>
    match f v with
    | .ok w => mapApply b0 f vs (applyPositions v w (b0.positionsOf v) b)
    | .error _ => mapApply b0 f vs b

/-- The first rejected transform outcome in distinct-value order. -/
def firstFailure (f : String → Except String String) : List String → Option String
  | [] => none
  | v :: vs =>
    match f v with
    | .ok _ => firstFailure f vs
    | .error e => some e

inductive MapErr where
  | invalidArg
  | transformFailed (reason : String)
deriving DecidableEq, Repr

/-- `map`: validate the player id, snapshot the distinct live values, invoke
the transform once per distinct value, commit every successful rewrite, and
only then raise the first failure (committed rewrites are not rolled back);
on success notify the watchers and return a fresh snapshot. -/
def Board.map (b : Board) (pid : String) (f : String → Except String String) :
    Board × Except MapErr String :=
  if !(isValidId pid) then (b, .error .invalidArg)
  else
    let values := b.distinctValues
    if values = [] then (b, .ok (b.look pid))
    else
      let b1 := mapApply b f values b
      match firstFailure f values with
      | some e => (b1, .error (.transformFailed e))
      | none => (b1.notifyChange, .ok (b1.look pid))

/-- `watch`: validate the player id and register a pending listener; the
returned promise stays pending until the next `notifyChange`. -/
def Board.watch (b : Board) (pid : String) : Board × Option Err :=
  if !(isValidId pid) then (b, some .invalidArgument)
  else ({ b with listeners := b.listeners ++ [pid] }, none)

/-- Board states reachable from a freshly constructed board by complete
`flip`, `map` and `watch` operations (`look` reads the state but never
mutates it, so it contributes no transition). -/
inductive Reachable : Board → Prop
  | init (h w : Nat) (vals : CardId → String) (hh : 0 < h) (hw : 0 < w) :
      Reachable (Board.make h w vals)
  | flip (b : Board) (pid : String) (r c : Nat) :
      Reachable b → Reachable (b.flip pid r c).1
  | map (b : Board) (pid : String) (f : String → Except String String) :
      Reachable b → Reachable (b.map pid f).1
  | watch (b : Board) (pid : String) :
      Reachable b → Reachable (b.watch pid).1

/-- One observation of the contested card by the Rule 1-D poll loop:
milliseconds elapsed since the wait began, whether the card is still on the
grid, and its current controller. -/
structure WaitObs where
  elapsed : Nat
  present : Bool
  ctrl : Option String

inductive WaitRes where
  | acquireTimeout
  | cardRemoved
  | claimedFree
  | claimedOwn
deriving DecidableEq, Repr

/-- One iteration of the Rule 1-D poll loop, in source order: timeout check
(skipped when the configured timeout is `0`, meaning unbounded), removal
check, then the two claim opportunities; `none` means sleep and retry. -/
def waitCheck (timeoutMs : Nat) (pid : String) (o : WaitObs) : Option WaitRes :=
  if timeoutMs ≠ 0 ∧ timeoutMs ≤ o.elapsed then some .acquireTimeout
  else if !o.present then some .cardRemoved
  else if o.ctrl = none then some .claimedFree
  else if o.ctrl = some pid then some .claimedOwn
  else none

/-- The Rule 1-D poll loop over a time-indexed observation sequence, with
explicit fuel standing in for the unbounded `while (true)`; `none` means the
fuel ran out before the loop exited. -/
def waitLoop (timeoutMs : Nat) (pid : String) (obs : Nat → WaitObs) :
    Nat → Nat → Option WaitRes
  | _, 0 => none
  | i, fuel + 1 =>
    match waitCheck timeoutMs pid (obs i) with
    | some res => some res
    | none => waitLoop timeoutMs pid obs (i + 1) fuel

/-- Per-cell snapshot line as the specification words it: `none` for an
absent or removed card, `my VALUE` for a face-up card controlled by the
requesting player, `up VALUE` for a face-up card controlled by anyone else or
uncontrolled, `down` for a face-down card. -/
def specCellLine (b : Board) (pid : String) (pos : CardId) : String :=
  match b.grid pos with
  | none => "none"
  | some id =>
    let cd := b.cards id
    if cd.removed then "none"
    else if cd.faceUp ∧ cd.controller = some pid then "my " ++ cd.value
    else if cd.faceUp then "up " ++ cd.value
    else "down"

/-- The `look` wire format as the specification words it: the `HEIGHTxWIDTH`
header followed by one line per cell in row-major order, each line (the
header included) newline-terminated. -/
def lookSpecFormat (b : Board) (pid : String) : String :=
  String.join (((toString b.height ++ "x" ++ toString b.width) ::
    b.rowMajor.map (specCellLine b pid)).map fun line => line ++ "\n")


/-! ## Concrete scenario boards

The 2×2 demonstration board `[["A","B"],["B","A"]]` from the specification's
scenario section, together with the states reached by the flip sequences the
claims describe. -/

def demoVals : CardId → String
  | (0, 0) => "A"
  | (0, 1) => "B"
  | (1, 0) => "B"
  | _ => "A"

def demoBoard : Board := Board.make 2 2 demoVals

/-- After `flip(p1,0,0)` then `flip(p1,1,1)`: a matched pair held by `p1`. -/
def demoAfterTwo : Board := ((demoBoard.flip "p1" 0 0).1.flip "p1" 1 1).1

/-- After the further `flip(p1,0,1)`: the matched pair has been finalized. -/
def demoAfterThree : Board := (demoAfterTwo.flip "p1" 0 1).1

/-- `p1` flips the non-matching pair `(0,0)`/`(0,1)` and releases both. -/
def collideTwo : Board := ((demoBoard.flip "p1" 0 0).1.flip "p1" 0 1).1

/-- `map` collapses every value to `"Z"`, making `p1`'s released previous
pair a retroactive value match. -/
def collideMapped : Board := (collideTwo.map "p1" fun _ => Except.ok "Z").1

/-- `q1` claims the face-up uncontrolled card `(0,0)` as a first card. -/
def collideClaimed : Board := (collideMapped.flip "q1" 0 0).1

/-- `p1`'s next flip finalizes its now-equal previous pair (Rule 3-A),
removing `(0,0)` out from under `q1`'s current first card. -/
def collideFinal : Board := (collideClaimed.flip "p1" 1 0).1

/-! ## C4: the `look` wire format -/

/-- The per-cell classification of the source's else-if chain agrees with the
specification's four-case wording. -/
theorem cellLine_eq_specCellLine (b : Board) (pid : String) (pos : CardId) :
    b.cellLine pid pos = specCellLine b pid pos := by
  unfold Board.cellLine specCellLine
  cases hg : b.grid pos with
  | none => rfl
  | some id =>
    by_cases h1 : (b.cards id).removed
    · simp [h1]
    · by_cases h2 : (b.cards id).faceUp
      · by_cases h3 : (b.cards id).controller = some pid
        · simp [h1, h2, h3]
        · simp [h1, h2, h3]
      · simp [h1, h2]

/-- C4: for every board state and player id, `look` returns exactly the
string formed by the `HEIGHTxWIDTH` header followed by one line per cell in
row-major order — `none` for an absent or removed card, `down` for a
face-down card, `my VALUE` for a face-up card controlled by the requester,
`up VALUE` for a face-up card controlled by anyone else or uncontrolled —
with every line, the header included, newline-terminated. -/
theorem look_matches_wire_format (b : Board) (pid : String) :
    b.look pid = lookSpecFormat b pid := by
  unfold Board.look lookSpecFormat
  have h : b.cellLine pid = specCellLine b pid :=
    funext fun pos => cellLine_eq_specCellLine b pid pos
  rw [h]

/-! ## C5: the matched-pair scenario -/

/-- C5: on the fresh 2×2 board `[["A","B"],["B","A"]]`, `flip(p1,0,0)` then
`flip(p1,1,1)` leaves both cards face up, controlled by `p1` and on the grid;
the subsequent `flip(p1,0,1)` finalizes the matched pair, unlinking `(0,0)`
and `(1,1)` from the grid with `removed = true`, and `look` reports `none`
at those two positions for every player. -/
theorem matched_pair_scenario :
    ((demoAfterTwo.cards (0, 0)).faceUp = true ∧
      (demoAfterTwo.cards (0, 0)).controller = some "p1" ∧
      demoAfterTwo.grid (0, 0) = some (0, 0) ∧
      (demoAfterTwo.cards (1, 1)).faceUp = true ∧
      (demoAfterTwo.cards (1, 1)).controller = some "p1" ∧
      demoAfterTwo.grid (1, 1) = some (1, 1)) ∧
    (demoAfterThree.grid (0, 0) = none ∧ demoAfterThree.grid (1, 1) = none ∧
      (demoAfterThree.cards (0, 0)).removed = true ∧
      (demoAfterThree.cards (1, 1)).removed = true) ∧
    (∀ pid : String, demoAfterThree.cellLine pid (0, 0) = "none" ∧
      demoAfterThree.cellLine pid (1, 1) = "none") := by
  refine ⟨by decide, by decide, fun pid => ⟨?_, ?_⟩⟩
  · have hg : demoAfterThree.grid (0, 0) = none := by decide
    unfold Board.cellLine
    rw [hg]
  · have hg : demoAfterThree.grid (1, 1) = none := by decide
    unfold Board.cellLine
    rw [hg]

/-! ## C1: the grid/removed invariant

The on-grid half of the claimed invariant does hold, but the removed half
fails: `finishPreviousPlay`'s matched branch (3-A) flags both cards
`removed = true` without turning them face down, so every finalized matched
pair leaves removed cards that are still face up — in direct contradiction
with `Card.checkRep`'s own assertion `removed === true` implies
`faceUp === false`. -/

/-- C1 fails on the code: after the reachable three-flip matched-pair
sequence on the demonstration board, the card unlinked from `(0,0)` is
`removed = true` yet still `faceUp = true` (while, as claimed, no grid cell
references it). -/
theorem removed_card_left_face_up :
    Reachable demoAfterThree ∧
    (demoAfterThree.cards (0, 0)).removed = true ∧
    demoAfterThree.grid (0, 0) = none ∧
    (demoAfterThree.cards (0, 0)).faceUp = true := by
  refine ⟨?_, by decide, by decide, by decide⟩
  exact .flip _ _ _ _ (.flip _ _ _ _ (.flip _ _ _ _
    (.init 2 2 demoVals (by decide) (by decide))))

/-! ## C6: the first-card/controller invariant

The claimed invariant fails: a `map` transform may collapse the two values of
a player's released, non-matching previous pair into equal values; another
player can then legitimately claim one of those face-up uncontrolled cards as
a first card, and the pair owner's next flip finalizes the retroactively
"matched" pair (Rule 3-A), removing the claimant's current first card from
the grid and clearing its controller.  `Board.checkRep`'s own assertion that
a set `firstCard` is on the grid and controlled by its player then fails. -/

/-- C6 fails on the code: after the reachable sequence `flip(p1,0,0)`,
`flip(p1,0,1)`, `map(p1, _ ↦ "Z")`, `flip(q1,0,0)`, `flip(p1,1,0)`, player
`q1`'s current first card is still the card created at `(0,0)`, but that
card has been removed from the grid and its controller is `none`, not `q1`. -/
theorem first_card_controller_broken :
    Reachable collideFinal ∧
    (collideFinal.players "q1").map PlayerSt.firstCard = some (some (0, 0)) ∧
    (collideFinal.cards (0, 0)).controller = none ∧
    (collideFinal.cards (0, 0)).removed = true ∧
    collideFinal.grid (0, 0) = none := by
  refine ⟨?_, by decide, by decide, by decide, by decide⟩
  exact .flip _ _ _ _ (.flip _ _ _ _ (.map _ _ _ (.flip _ _ _ _ (.flip _ _ _ _
    (.init 2 2 demoVals (by decide) (by decide))))))

/-! ## C7: player-id validation

Only `map` and `watch` validate the player id against the word-character
pattern; `flip` registers any id via `getOrCreatePlayer` and proceeds, and
`look` renders a snapshot for any id, so the claim that all four operations
reject malformed ids fails. -/

/-- Rule 1 of `flip` never produces an `invalidArgument` failure. -/
theorem flipRule1_no_invalidArg (b : Board) (pid : String) (r c : Nat) :
    (b.flipRule1 pid r c).2 ≠ some Err.invalidArgument := by
  unfold Board.flipRule1
  split
  · simp
  · split
    · simp
    · simp only [apply_ite Prod.snd]
      split <;> simp

/-- Rule 2 of `flip` never produces an `invalidArgument` failure. -/
theorem flipRule2_no_invalidArg (b : Board) (pid : String) (fId : CardId) (r c : Nat) :
    (b.flipRule2 pid fId r c).2 ≠ some Err.invalidArgument := by
  unfold Board.flipRule2
  split
  · simp
  · split
    · simp
    · split
      · simp
      · simp only [apply_ite Prod.snd]
        split <;> simp

/-- C7 fails on the code: `flip` performs no id-format validation — a flip by
the malformed id `"p 1"` (it contains a space) succeeds and hands that id
control of the card, instead of failing with `InvalidArgument`. -/
theorem flip_accepts_malformed_id :
    isValidId "p 1" = false ∧
    (demoBoard.flip "p 1" 0 0).2 = none ∧
    ((demoBoard.flip "p 1" 0 0).1.cards (0, 0)).controller = some "p 1" := by
  decide

/-- C7 amended: `map` and `watch` reject every malformed player id with the
`InvalidArgument` failure, leaving the state untouched, but `flip` (and
`look`, which is a total snapshot function) perform no id-format validation;
in particular no `flip` call ever fails with `InvalidArgument`. -/
theorem only_map_and_watch_validate_ids (pid : String) (hbad : isValidId pid = false) :
    (∀ b : Board, ∀ f, b.map pid f = (b, Except.error MapErr.invalidArg)) ∧
    (∀ b : Board, b.watch pid = (b, some Err.invalidArgument)) ∧
    (∀ (b : Board) (r c : Nat), (b.flip pid r c).2 ≠ some Err.invalidArgument) := by
  refine ⟨fun b f => by simp [Board.map, hbad], fun b => by simp [Board.watch, hbad],
    fun b r c => ?_⟩
  unfold Board.flip
  dsimp only
  split
  · simp
  · split
    · simp
    · split
      · exact flipRule1_no_invalidArg _ _ _ _
      · exact flipRule2_no_invalidArg _ _ _ _ _
      · simp

/-- Witness for the amended C7 at the concrete malformed id `"p 1"`. -/
theorem only_map_and_watch_validate_ids_witness :
    demoBoard.watch "p 1" = (demoBoard, some Err.invalidArgument) ∧
    (demoBoard.flip "p 1" 0 0).2 ≠ some Err.invalidArgument :=
  ⟨(only_map_and_watch_validate_ids "p 1" (by decide)).2.1 demoBoard,
    (only_map_and_watch_validate_ids "p 1" (by decide)).2.2 demoBoard 0 0⟩

/-! ## C8: the Rule 1-D wait timeout

The source hardcodes `waitTimeoutMs = 0`, the documented "unbounded"
configuration, so the timeout check is modelled with the timeout as the
configuration parameter the specification describes; `waitLoop` runs the
loop body over a time-indexed sequence of observations of the contested
card. -/

/-- C8: when the Rule 1-D wait is configured with a finite (non-zero)
timeout, the contested card stays on the grid, its controller never becomes
free or the waiter, and each poll sleeps at least the 10 ms interval, the
loop exits with `acquireTimeout` once the timeout has elapsed (fuel
`timeoutMs + 1` always suffices). -/
theorem wait_times_out (timeoutMs : Nat) (pid : String) (obs : Nat → WaitObs)
    (htm : timeoutMs ≠ 0)
    (hpresent : ∀ i, (obs i).present = true)
    (hctrl : ∀ i, (obs i).ctrl ≠ none ∧ (obs i).ctrl ≠ some pid)
    (helapsed : ∀ i, 10 * i ≤ (obs i).elapsed) :
    waitLoop timeoutMs pid obs 0 (timeoutMs + 1) = some WaitRes.acquireTimeout := by
  have key : ∀ fuel i, timeoutMs ≤ 10 * (i + fuel) →
      waitLoop timeoutMs pid obs i (fuel + 1) = some WaitRes.acquireTimeout := by
    intro fuel
    induction fuel with
    | zero =>
      intro i hi
      have he : timeoutMs ≤ (obs i).elapsed := le_trans (by simpa using hi) (helapsed i)
      unfold waitLoop waitCheck
      rw [if_pos ⟨htm, he⟩]
    | succ n ih =>
      intro i hi
      by_cases he : timeoutMs ≤ (obs i).elapsed
      · unfold waitLoop waitCheck
        rw [if_pos ⟨htm, he⟩]
      · have hstep : waitCheck timeoutMs pid (obs i) = none := by
          unfold waitCheck
          rw [if_neg (by tauto)]
          rw [if_neg (by simp [hpresent i])]
          rw [if_neg (by simpa using (hctrl i).1)]
          rw [if_neg (by simpa using (hctrl i).2)]
        have hunroll : waitLoop timeoutMs pid obs i (n + 1 + 1) =
            waitLoop timeoutMs pid obs (i + 1) (n + 1) := by
          rw [waitLoop, hstep]
        rw [hunroll]
        exact ih (i + 1) (by omega)
  exact key timeoutMs 0 (by omega)

/-- Witness for C8: with a 30 ms timeout, a card always present and held by
`"p2"`, and the observed clock advancing 10 ms per poll, the waiter `"p1"`
fails with `acquireTimeout`. -/
theorem wait_times_out_witness :
    waitLoop 30 "p1" (fun i => ⟨10 * i, true, some "p2"⟩) 0 31 =
      some WaitRes.acquireTimeout :=
  wait_times_out 30 "p1" (fun i => ⟨10 * i, true, some "p2"⟩) (by decide)
    (fun i => rfl) (fun i => ⟨by simp, by simp⟩) (fun i => le_refl _)

/-! ## Projection toolkit for the state-transformer primitives -/

@[simp] theorem updateCard_players (b : Board) (id : CardId) (g : Card → Card) :
    (b.updateCard id g).players = b.players := rfl

@[simp] theorem updateCard_grid (b : Board) (id : CardId) (g : Card → Card) :
    (b.updateCard id g).grid = b.grid := rfl

@[simp] theorem updateCard_height (b : Board) (id : CardId) (g : Card → Card) :
    (b.updateCard id g).height = b.height := rfl

@[simp] theorem updateCard_width (b : Board) (id : CardId) (g : Card → Card) :
    (b.updateCard id g).width = b.width := rfl

@[simp] theorem updateCard_listeners (b : Board) (id : CardId) (g : Card → Card) :
    (b.updateCard id g).listeners = b.listeners := rfl

theorem updateCard_cards (b : Board) (id : CardId) (g : Card → Card) (j : CardId) :
    (b.updateCard id g).cards j = if j = id then g (b.cards j) else b.cards j := rfl

@[simp] theorem updateCard_cards_self (b : Board) (id : CardId) (g : Card → Card) :
    (b.updateCard id g).cards id = g (b.cards id) := by
  rw [updateCard_cards, if_pos rfl]

theorem updateCard_cards_other (b : Board) (id : CardId) (g : Card → Card) (j : CardId)
    (h : j ≠ id) : (b.updateCard id g).cards j = b.cards j := by
  rw [updateCard_cards, if_neg h]

@[simp] theorem setGrid_players (b : Board) (pos : CardId) (v : Option CardId) :
    (b.setGrid pos v).players = b.players := rfl

@[simp] theorem setGrid_cards (b : Board) (pos : CardId) (v : Option CardId) :
    (b.setGrid pos v).cards = b.cards := rfl

@[simp] theorem setGrid_height (b : Board) (pos : CardId) (v : Option CardId) :
    (b.setGrid pos v).height = b.height := rfl

@[simp] theorem setGrid_width (b : Board) (pos : CardId) (v : Option CardId) :
    (b.setGrid pos v).width = b.width := rfl

theorem setGrid_grid (b : Board) (pos : CardId) (v : Option CardId) (j : CardId) :
    (b.setGrid pos v).grid j = if j = pos then v else b.grid j := rfl

@[simp] theorem updatePlayer_cards (b : Board) (pid : String) (g : PlayerSt → PlayerSt) :
    (b.updatePlayer pid g).cards = b.cards := rfl

@[simp] theorem updatePlayer_grid (b : Board) (pid : String) (g : PlayerSt → PlayerSt) :
    (b.updatePlayer pid g).grid = b.grid := rfl

@[simp] theorem updatePlayer_height (b : Board) (pid : String) (g : PlayerSt → PlayerSt) :
    (b.updatePlayer pid g).height = b.height := rfl

@[simp] theorem updatePlayer_width (b : Board) (pid : String) (g : PlayerSt → PlayerSt) :
    (b.updatePlayer pid g).width = b.width := rfl

@[simp] theorem updatePlayer_listeners (b : Board) (pid : String) (g : PlayerSt → PlayerSt) :
    (b.updatePlayer pid g).listeners = b.listeners := rfl

theorem updatePlayer_players (b : Board) (pid : String) (g : PlayerSt → PlayerSt)
    (q : String) :
    (b.updatePlayer pid g).players q =
      if q = pid then (b.players q).map g else b.players q := rfl

@[simp] theorem updatePlayer_players_self (b : Board) (pid : String)
    (g : PlayerSt → PlayerSt) :
    (b.updatePlayer pid g).players pid = (b.players pid).map g := by
  rw [updatePlayer_players, if_pos rfl]

theorem updatePlayer_players_other (b : Board) (pid : String) (g : PlayerSt → PlayerSt)
    (q : String) (h : q ≠ pid) :
    (b.updatePlayer pid g).players q = b.players q := by
  rw [updatePlayer_players, if_neg h]

@[simp] theorem notifyChange_cards (b : Board) : b.notifyChange.cards = b.cards := rfl

@[simp] theorem notifyChange_grid (b : Board) : b.notifyChange.grid = b.grid := rfl

@[simp] theorem notifyChange_players (b : Board) : b.notifyChange.players = b.players := rfl

@[simp] theorem notifyChange_height (b : Board) : b.notifyChange.height = b.height := rfl

@[simp] theorem notifyChange_width (b : Board) : b.notifyChange.width = b.width := rfl

@[simp] theorem make_players (h w : Nat) (vals : CardId → String) :
    (Board.make h w vals).players = fun _ => none := rfl

theorem getOrCreatePlayer_of_some (b : Board) (pid : String) (P : PlayerSt)
    (hP : b.players pid = some P) : b.getOrCreatePlayer pid = b := by
  unfold Board.getOrCreatePlayer
  rw [hP]

theorem getOrCreatePlayer_players_of_none (b : Board) (pid : String)
    (h : b.players pid = none) :
    (b.getOrCreatePlayer pid).players = fun q => if q = pid then some {} else b.players q := by
  unfold Board.getOrCreatePlayer
  rw [h]

@[simp] theorem getOrCreatePlayer_cards (b : Board) (pid : String) :
    (b.getOrCreatePlayer pid).cards = b.cards := by
  unfold Board.getOrCreatePlayer
  split <;> rfl

@[simp] theorem getOrCreatePlayer_grid (b : Board) (pid : String) :
    (b.getOrCreatePlayer pid).grid = b.grid := by
  unfold Board.getOrCreatePlayer
  split <;> rfl

@[simp] theorem getOrCreatePlayer_height (b : Board) (pid : String) :
    (b.getOrCreatePlayer pid).height = b.height := by
  unfold Board.getOrCreatePlayer
  split <;> rfl

@[simp] theorem getOrCreatePlayer_width (b : Board) (pid : String) :
    (b.getOrCreatePlayer pid).width = b.width := by
  unfold Board.getOrCreatePlayer
  split <;> rfl

theorem finishPreviousPlay_noop (b : Board) (pid : String) (P : PlayerSt)
    (hP : b.players pid = some P)
    (h1 : P.previousFirstCard = none) (h2 : P.previousSecondCard = none) :
    b.finishPreviousPlay pid = b := by
  unfold Board.finishPreviousPlay
  rw [hP]
  dsimp only
  rw [h1, h2]

/-! ## C3: the Rule 2-A / 2-B relinquish-and-fail behavior -/

theorem relinquishFirst_players (b : Board) (pid : String) (fId : CardId) (P : PlayerSt)
    (hP : b.players pid = some P) :
    (b.relinquishFirst pid fId).players pid =
      some { P with firstCard := none, previousFirstCard := some fId,
                    previousSecondCard := none } := by
  unfold Board.relinquishFirst
  dsimp only
  split <;> simp [hP]

theorem relinquishFirst_released (b : Board) (pid : String) (fId : CardId)
    (hrem : (b.cards fId).removed = false)
    (hon : b.grid ((b.cards fId).row, (b.cards fId).col) = some fId) :
    ((b.relinquishFirst pid fId).cards fId).controller = none ∧
    ((b.relinquishFirst pid fId).cards fId).prevControlledBy = some pid := by
  unfold Board.relinquishFirst
  dsimp only
  rw [if_pos]
  · simp
  · exact ⟨by simp [hrem], by simpa using hon⟩

/-- The dispatch of `flip` down to Rule 2 under the stated player state. -/
theorem flip_to_rule2 (b : Board) (pid : String) (P : PlayerSt) (fId : CardId) (r c : Nat)
    (hP : b.players pid = some P)
    (hF : P.firstCard = some fId) (hS : P.secondCard = none)
    (hp1 : P.previousFirstCard = none) (hp2 : P.previousSecondCard = none)
    (hr : r < b.height) (hc : c < b.width) :
    b.flip pid r c = b.flipRule2 pid fId r c := by
  unfold Board.flip
  rw [getOrCreatePlayer_of_some b pid P hP]
  rw [if_neg (by omega)]
  dsimp only
  rw [finishPreviousPlay_noop b pid P hP hp1 hp2, hP]
  dsimp only
  rw [hF, hS]

/-- C3: when a player holds a first card and no second card, a flip whose
target cell holds no live card (2-A) or whose target card is face up and
controlled (2-B) fails — with a distinct error kind per case — and, before
failing, records the held first card as `previousFirstCard` with
`previousSecondCard` cleared, clears the player's current first card, and,
when the first card is still on the grid, clears its controller and stamps
`prevControlledBy` with the calling player; the returned state shows these
side effects persisting despite the failure. -/
theorem flip_second_card_failure (b : Board) (pid : String) (P : PlayerSt) (fId : CardId)
    (r c : Nat) (e : Err)
    (hP : b.players pid = some P)
    (hF : P.firstCard = some fId) (hS : P.secondCard = none)
    (hp1 : P.previousFirstCard = none) (hp2 : P.previousSecondCard = none)
    (hr : r < b.height) (hc : c < b.width)
    (hcase : (b.cardExists r c = false ∧ e = Err.secondCardNoCard) ∨
      ((∃ id, b.grid (r, c) = some id ∧ (b.cards id).removed = false ∧
        (b.cards id).faceUp = true ∧ (b.cards id).controller ≠ none) ∧
        e = Err.secondCardContested)) :
    (b.flip pid r c).2 = some e ∧
    ((b.flip pid r c).1.players pid =
      some { P with firstCard := none, previousFirstCard := some fId,
                    previousSecondCard := none }) ∧
    ((b.cards fId).removed = false ∧
        b.grid ((b.cards fId).row, (b.cards fId).col) = some fId →
      ((b.flip pid r c).1.cards fId).controller = none ∧
      ((b.flip pid r c).1.cards fId).prevControlledBy = some pid) ∧
    Err.secondCardNoCard ≠ Err.secondCardContested := by
  have hd := flip_to_rule2 b pid P fId r c hP hF hS hp1 hp2 hr hc
  have hres : b.flip pid r c = (b.relinquishFirst pid fId, some e) := by
    rw [hd]
    unfold Board.flipRule2
    rcases hcase with ⟨hdead, he⟩ | ⟨⟨id, hid, hrm, hfu, hctl⟩, he⟩
    · unfold Board.cardExists at hdead
      cases hg : b.grid (r, c) with
      | none => rw [he]
      | some id =>
        rw [hg] at hdead
        dsimp only at hdead ⊢
        rw [if_pos (by simpa using hdead), he]
    · rw [hid]
      dsimp only
      rw [if_neg (by simp [hrm]), if_pos ⟨hfu, hctl⟩, he]
  rw [hres]
  exact ⟨rfl, relinquishFirst_players b pid fId P hP,
    fun hg => relinquishFirst_released b pid fId hg.1 hg.2, by decide⟩

/-- A reachable state exercising Rule 2-A: after the matched pair `(0,0)`,
`(1,1)` is finalized and removed, `p2` claims `(1,0)` as a first card and
then flips the dead cell `(0,0)`. -/
def ruleTwoBoard : Board := (demoAfterThree.flip "p2" 1 0).1

/-- Witness for C3 at the concrete 2-A instance on `ruleTwoBoard`. -/
theorem flip_second_card_failure_witness :
    ((ruleTwoBoard.flip "p2" 0 0).2 = some Err.secondCardNoCard ∧
      ((ruleTwoBoard.flip "p2" 0 0).1.cards (1, 0)).controller = none ∧
      ((ruleTwoBoard.flip "p2" 0 0).1.cards (1, 0)).prevControlledBy = some "p2") := by
  have h := flip_second_card_failure ruleTwoBoard "p2"
    { firstCard := some (1, 0), secondCard := none,
      previousFirstCard := none, previousSecondCard := none } (1, 0) 0 0
    Err.secondCardNoCard (by decide) (by decide) (by decide) (by decide) (by decide)
    (by decide) (by decide) (Or.inl ⟨by decide, rfl⟩)
  exact ⟨h.1, (h.2.2.1 ⟨by decide, by decide⟩).1, (h.2.2.1 ⟨by decide, by decide⟩).2⟩

/-! ## C9: `secondCard` is never assigned

No code path ever stores a card in a player's `secondCard` slot: the
completed-attempt stage lives entirely in `previousFirstCard` /
`previousSecondCard`.  We prove the invariant by induction over reachable
states. -/

/-- Every registered player's `secondCard` slot is empty. -/
def SecondNone (b : Board) : Prop :=
  ∀ pid P, b.players pid = some P → P.secondCard = none

theorem secondNone_updatePlayer {b : Board} {pid : String} {g : PlayerSt → PlayerSt}
    (hb : SecondNone b)
    (hg : ∀ P, (g P).secondCard = P.secondCard ∨ (g P).secondCard = none) :
    SecondNone (b.updatePlayer pid g) := by
  intro q Q hQ
  rw [updatePlayer_players] at hQ
  by_cases hq : q = pid
  · rw [if_pos hq] at hQ
    cases hB : b.players q with
    | none => rw [hB] at hQ; cases hQ
    | some P0 =>
      rw [hB] at hQ
      rw [Option.map_some'] at hQ
      injection hQ with hQ
      rcases hg P0 with h | h
      · rw [← hQ, h]
        exact hb q P0 hB
      · rw [← hQ, h]
  · rw [if_neg hq] at hQ
    exact hb q Q hQ

theorem secondNone_notifyChange {b : Board} (hb : SecondNone b) :
    SecondNone b.notifyChange := hb

theorem secondNone_updateCard {b : Board} {id : CardId} {g : Card → Card}
    (hb : SecondNone b) : SecondNone (b.updateCard id g) := hb

theorem secondNone_setGrid {b : Board} {pos : CardId} {v : Option CardId}
    (hb : SecondNone b) : SecondNone (b.setGrid pos v) := hb

theorem secondNone_ite {P : Prop} [Decidable P] {x y : Board}
    (hx : SecondNone x) (hy : SecondNone y) : SecondNone (if P then x else y) := by
  split
  · exact hx
  · exact hy

theorem secondNone_getOrCreatePlayer {b : Board} {pid : String} (hb : SecondNone b) :
    SecondNone (b.getOrCreatePlayer pid) := by
  unfold Board.getOrCreatePlayer
  split
  · exact hb
  · intro q Q hQ
    dsimp only at hQ
    by_cases hq : q = pid
    · rw [if_pos hq] at hQ
      injection hQ with h
      rw [← h]
    · rw [if_neg hq] at hQ
      exact hb q Q hQ

theorem secondNone_removeIfOnGrid {b : Board} {id : CardId} (hb : SecondNone b) :
    SecondNone (b.removeIfOnGrid id) := by
  unfold Board.removeIfOnGrid
  dsimp only
  exact secondNone_ite (secondNone_updateCard (secondNone_setGrid hb)) hb

theorem secondNone_finishCardDown {b : Board} {pid : String} {x : Option CardId}
    (hb : SecondNone b) : SecondNone (b.finishCardDown pid x) := by
  unfold Board.finishCardDown
  cases x with
  | none => exact hb
  | some id =>
    dsimp only
    refine secondNone_ite hb (secondNone_ite hb (secondNone_ite ?_ ?_))
    · exact secondNone_updateCard
        (secondNone_ite (secondNone_ite (secondNone_updateCard hb) hb) hb)
    · exact secondNone_ite (secondNone_ite (secondNone_updateCard hb) hb) hb

theorem secondNone_finishNonMatch {b : Board} {pid : String} {a? b? : Option CardId}
    (hb : SecondNone b) : SecondNone (b.finishNonMatch pid a? b?) := by
  unfold Board.finishNonMatch
  exact secondNone_notifyChange (secondNone_updatePlayer
    (secondNone_finishCardDown (secondNone_finishCardDown hb)) (fun P => Or.inl rfl))

theorem secondNone_finishPreviousPlay {b : Board} {pid : String} (hb : SecondNone b) :
    SecondNone (b.finishPreviousPlay pid) := by
  unfold Board.finishPreviousPlay
  split
  · exact hb
  · split
    · exact hb
    · split
      · exact secondNone_notifyChange (secondNone_updatePlayer
          (secondNone_updateCard (secondNone_updateCard
            (secondNone_removeIfOnGrid (secondNone_removeIfOnGrid hb))))
          (fun P => Or.inl rfl))
      · exact secondNone_finishNonMatch hb
    · exact secondNone_finishNonMatch hb

theorem secondNone_relinquishFirst {b : Board} {pid : String} {fId : CardId}
    (hb : SecondNone b) : SecondNone (b.relinquishFirst pid fId) := by
  unfold Board.relinquishFirst
  dsimp only
  refine secondNone_updatePlayer (secondNone_ite ?_ ?_) (fun P => Or.inl rfl)
  · exact secondNone_notifyChange (secondNone_updateCard
      (secondNone_updatePlayer hb (fun P => Or.inl rfl)))
  · exact secondNone_updatePlayer hb (fun P => Or.inl rfl)

theorem secondNone_flipRule1 {b : Board} {pid : String} {r c : Nat} (hb : SecondNone b) :
    SecondNone (b.flipRule1 pid r c).1 := by
  unfold Board.flipRule1
  split
  · exact hb
  · split
    · exact hb
    · dsimp only
      simp only [apply_ite Prod.fst]
      repeat
        first
        | exact hb
        | apply secondNone_ite
        | apply secondNone_notifyChange
        | apply secondNone_updateCard
        | apply secondNone_setGrid
        | refine secondNone_updatePlayer ?_ (fun P => Or.inl rfl)
        | refine secondNone_updatePlayer ?_ (fun P => Or.inr rfl)

theorem secondNone_flipRule2 {b : Board} {pid : String} {fId : CardId} {r c : Nat}
    (hb : SecondNone b) : SecondNone (b.flipRule2 pid fId r c).1 := by
  unfold Board.flipRule2
  split
  · exact secondNone_relinquishFirst hb
  · split
    · exact secondNone_relinquishFirst hb
    · split
      · exact secondNone_relinquishFirst hb
      · dsimp only
        simp only [apply_ite Prod.fst]
        repeat
          first
          | exact hb
          | apply secondNone_ite
          | apply secondNone_notifyChange
          | apply secondNone_updateCard
          | apply secondNone_setGrid
          | refine secondNone_updatePlayer ?_ (fun P => Or.inl rfl)
          | refine secondNone_updatePlayer ?_ (fun P => Or.inr rfl)

theorem secondNone_flip {b : Board} {pid : String} {r c : Nat} (hb : SecondNone b) :
    SecondNone (b.flip pid r c).1 := by
  unfold Board.flip
  dsimp only
  split
  · exact secondNone_getOrCreatePlayer hb
  · split
    · exact secondNone_finishPreviousPlay (secondNone_getOrCreatePlayer hb)
    · split
      · exact secondNone_flipRule1
          (secondNone_finishPreviousPlay (secondNone_getOrCreatePlayer hb))
      · exact secondNone_flipRule2
          (secondNone_finishPreviousPlay (secondNone_getOrCreatePlayer hb))
      · exact secondNone_finishPreviousPlay (secondNone_getOrCreatePlayer hb)
theorem applyAt_players (b : Board) (v w : String) (pos : CardId) :
    (b.applyAt v w pos).players = b.players := by
  unfold Board.applyAt
  split
  · rfl
  · split
    · rfl
    · split <;> rfl

theorem applyPositions_players (v w : String) :
    ∀ (ps : List CardId) (b : Board), (applyPositions v w ps b).players = b.players
  | [], _ => rfl
  | pos :: ps, b => by
    rw [applyPositions, applyPositions_players v w ps, applyAt_players]

theorem mapApply_players (b0 : Board) (f : String → Except String String) :
    ∀ (vs : List String) (b : Board), (mapApply b0 f vs b).players = b.players
  | [], _ => rfl
  | v :: vs, b => by
    rw [mapApply]
    cases f v with
    | ok w => rw [mapApply_players b0 f vs, applyPositions_players]
    | error e => rw [mapApply_players b0 f vs]

theorem map_players (b : Board) (pid : String) (f : String → Except String String) :
    (b.map pid f).1.players = b.players := by
  unfold Board.map
  split
  · rfl
  · dsimp only
    split
    · rfl
    · split
      · exact mapApply_players _ _ _ _
      · rw [notifyChange_players, mapApply_players]

theorem watch_players (b : Board) (pid : String) :
    (b.watch pid).1.players = b.players := by
  unfold Board.watch
  split <;> rfl

/-- C9: in every reachable board state, every registered player's
`secondCard` field is empty — no operation ever assigns a non-`none` second
card, the completed-attempt stage being represented solely by the
`previousFirstCard`/`previousSecondCard` pair. -/
theorem second_card_never_assigned (b : Board) (hb : Reachable b) :
    ∀ pid P, b.players pid = some P → P.secondCard = none := by
  induction hb with
  | init h w vals hh hw => intro pid P hP; cases hP
  | flip b pid r c _ ih => exact secondNone_flip ih
  | map b pid f _ ih =>
    intro q Q hQ
    rw [map_players] at hQ
    exact ih q Q hQ
  | watch b pid _ ih =>
    intro q Q hQ
    rw [watch_players] at hQ
    exact ih q Q hQ

/-- Witness for C9 at a concrete reachable state with a registered player. -/
theorem second_card_never_assigned_witness :
    ∃ P, (demoBoard.flip "p1" 0 0).1.players "p1" = some P ∧ P.secondCard = none := by
  have hr : Reachable (demoBoard.flip "p1" 0 0).1 :=
    .flip _ _ _ _ (.init 2 2 demoVals (by decide) (by decide))
  cases hP : (demoBoard.flip "p1" 0 0).1.players "p1" with
  | none => exact absurd hP (by decide)
  | some P => exact ⟨P, rfl, second_card_never_assigned _ hr "p1" P hP⟩

/-! ## C10: `map` mutates only card values -/

/-- Two card objects that agree on every field except possibly `value`. -/
def SameButValue (c c' : Card) : Prop :=
  c'.faceUp = c.faceUp ∧ c'.controller = c.controller ∧
  c'.prevControlledBy = c.prevControlledBy ∧ c'.removed = c.removed ∧
  c'.row = c.row ∧ c'.col = c.col

theorem sameButValue_refl (c : Card) : SameButValue c c :=
  ⟨rfl, rfl, rfl, rfl, rfl, rfl⟩

theorem sameButValue_trans {c₁ c₂ c₃ : Card} (h₁ : SameButValue c₁ c₂)
    (h₂ : SameButValue c₂ c₃) : SameButValue c₁ c₃ :=
  ⟨h₂.1.trans h₁.1, h₂.2.1.trans h₁.2.1, h₂.2.2.1.trans h₁.2.2.1,
    h₂.2.2.2.1.trans h₁.2.2.2.1, h₂.2.2.2.2.1.trans h₁.2.2.2.2.1,
    h₂.2.2.2.2.2.trans h₁.2.2.2.2.2⟩

theorem applyAt_cases (b : Board) (v w : String) (pos : CardId) (j : CardId) :
    (b.applyAt v w pos).cards j = b.cards j ∨
    (b.applyAt v w pos).cards j = { b.cards j with value := w } := by
  unfold Board.applyAt
  split
  · exact Or.inl rfl
  · split
    · exact Or.inl rfl
    · split
      · rw [updateCard_cards]
        split
        · exact Or.inr rfl
        · exact Or.inl rfl
      · exact Or.inl rfl

theorem applyAt_sameButValue (b : Board) (v w : String) (pos : CardId) (j : CardId) :
    SameButValue (b.cards j) ((b.applyAt v w pos).cards j) := by
  rcases applyAt_cases b v w pos j with h | h <;> rw [h]
  · exact sameButValue_refl _
  · exact ⟨rfl, rfl, rfl, rfl, rfl, rfl⟩

theorem applyAt_grid (b : Board) (v w : String) (pos : CardId) :
    (b.applyAt v w pos).grid = b.grid := by
  unfold Board.applyAt
  split
  · rfl
  · split
    · rfl
    · split <;> rfl

theorem applyPositions_sameButValue (v w : String) :
    ∀ (ps : List CardId) (b : Board) (j : CardId),
      SameButValue (b.cards j) ((applyPositions v w ps b).cards j)
  | [], _, _ => sameButValue_refl _
  | pos :: ps, b, j => by
    rw [applyPositions]
    exact sameButValue_trans (applyAt_sameButValue b v w pos j)
      (applyPositions_sameButValue v w ps _ j)

theorem applyPositions_grid (v w : String) :
    ∀ (ps : List CardId) (b : Board), (applyPositions v w ps b).grid = b.grid
  | [], _ => rfl
  | pos :: ps, b => by
    rw [applyPositions, applyPositions_grid v w ps, applyAt_grid]

theorem mapApply_sameButValue (b0 : Board) (f : String → Except String String) :
    ∀ (vs : List String) (b : Board) (j : CardId),
      SameButValue (b.cards j) ((mapApply b0 f vs b).cards j)
  | [], _, _ => sameButValue_refl _
  | v :: vs, b, j => by
    rw [mapApply]
    cases f v with
    | ok w =>
      exact sameButValue_trans (applyPositions_sameButValue v w _ b j)
        (mapApply_sameButValue b0 f vs _ j)
    | error e => exact mapApply_sameButValue b0 f vs b j

theorem mapApply_grid (b0 : Board) (f : String → Except String String) :
    ∀ (vs : List String) (b : Board), (mapApply b0 f vs b).grid = b.grid
  | [], _ => rfl
  | v :: vs, b => by
    rw [mapApply]
    cases f v with
    | ok w => rw [mapApply_grid b0 f vs, applyPositions_grid]
    | error e => rw [mapApply_grid b0 f vs]

/-- C10: a call to `map` mutates at most the `value` fields of cards — for
every card object, `faceUp`, `controller`, `prevControlledBy`, `removed`,
`row` and `col` are unchanged; no grid cell is added, cleared or re-pointed;
and no player's `firstCard`/`secondCard`/`previousFirstCard`/
`previousSecondCard` reference changes. -/
theorem map_frame_effect (b : Board) (pid : String) (f : String → Except String String) :
    (b.map pid f).1.grid = b.grid ∧
    (b.map pid f).1.players = b.players ∧
    ∀ id : CardId, SameButValue (b.cards id) ((b.map pid f).1.cards id) := by
  refine ⟨?_, map_players b pid f, ?_⟩
  · unfold Board.map
    split
    · rfl
    · dsimp only
      split
      · rfl
      · split
        · exact mapApply_grid _ _ _ _
        · rw [notifyChange_grid, mapApply_grid]
  · intro id
    unfold Board.map
    split
    · exact sameButValue_refl _
    · dsimp only
      split
      · exact sameButValue_refl _
      · split
        · exact mapApply_sameButValue _ _ _ _ _
        · exact mapApply_sameButValue _ _ _ _ _

/-! ## C2: `map` transform semantics -/

theorem foldl_insert_nodup (f : CardId → Option String) :
    ∀ (l : List CardId) (acc : List String), acc.Nodup →
      (l.foldl (fun acc pos =>
        match f pos with
        | none => acc
        | some v => if v ∈ acc then acc else acc ++ [v]) acc).Nodup := by
  intro l
  induction l with
  | nil => intro acc h; exact h
  | cons p l ih =>
    intro acc hacc
    rw [List.foldl_cons]
    apply ih
    cases hf : f p with
    | none => exact hacc
    | some v =>
      dsimp only
      split
      · exact hacc
      · rename_i hv
        rw [List.nodup_append]
        refine ⟨hacc, List.nodup_singleton v, ?_⟩
        intro a ha hav
        rw [List.mem_singleton] at hav
        exact hv (hav ▸ ha)

theorem foldl_insert_mem (f : CardId → Option String) :
    ∀ (l : List CardId) (acc : List String) (v : String),
      (v ∈ l.foldl (fun acc pos =>
        match f pos with
        | none => acc
        | some u => if u ∈ acc then acc else acc ++ [u]) acc ↔
      v ∈ acc ∨ ∃ p, p ∈ l ∧ f p = some v) := by
  intro l
  induction l with
  | nil => intro acc v; simp
  | cons p l ih =>
    intro acc v
    rw [List.foldl_cons, ih]
    cases hf : f p with
    | none =>
      dsimp only
      constructor
      · rintro (h | ⟨q, hq, hfq⟩)
        · exact Or.inl h
        · exact Or.inr ⟨q, List.mem_cons_of_mem _ hq, hfq⟩
      · rintro (h | ⟨q, hq, hfq⟩)
        · exact Or.inl h
        · rcases List.mem_cons.mp hq with rfl | hq'
          · rw [hf] at hfq; cases hfq
          · exact Or.inr ⟨q, hq', hfq⟩
    | some u =>
      dsimp only
      split
      · rename_i hu
        constructor
        · rintro (h | ⟨q, hq, hfq⟩)
          · exact Or.inl h
          · exact Or.inr ⟨q, List.mem_cons_of_mem _ hq, hfq⟩
        · rintro (h | ⟨q, hq, hfq⟩)
          · exact Or.inl h
          · rcases List.mem_cons.mp hq with rfl | hq'
            · rw [hf] at hfq
              injection hfq with h'
              exact Or.inl (h' ▸ hu)
            · exact Or.inr ⟨q, hq', hfq⟩
      · rename_i hu
        constructor
        · rintro (h | ⟨q, hq, hfq⟩)
          · rcases List.mem_append.mp h with h' | h'
            · exact Or.inl h'
            · rw [List.mem_singleton] at h'
              exact Or.inr ⟨p, List.mem_cons_self p l, h' ▸ hf⟩
          · exact Or.inr ⟨q, List.mem_cons_of_mem _ hq, hfq⟩
        · rintro (h | ⟨q, hq, hfq⟩)
          · exact Or.inl (List.mem_append.mpr (Or.inl h))
          · rcases List.mem_cons.mp hq with rfl | hq'
            · rw [hf] at hfq
              injection hfq with h'
              exact Or.inl (List.mem_append.mpr (Or.inr (by rw [List.mem_singleton, h'])))
            · exact Or.inr ⟨q, hq', hfq⟩

theorem distinctValues_nodup (b : Board) : b.distinctValues.Nodup :=
  foldl_insert_nodup b.liveValueAt b.rowMajor [] List.nodup_nil

theorem mem_distinctValues (b : Board) (v : String) :
    v ∈ b.distinctValues ↔ ∃ p, p ∈ b.rowMajor ∧ b.liveValueAt p = some v := by
  unfold Board.distinctValues
  simpa using foldl_insert_mem b.liveValueAt b.rowMajor [] v

theorem mem_positionsOf (b : Board) (v : String) (p : CardId) :
    p ∈ b.positionsOf v ↔ p ∈ b.rowMajor ∧ b.liveValueAt p = some v := by
  unfold Board.positionsOf
  rw [List.mem_filter]
  constructor
  · rintro ⟨h1, h2⟩
    exact ⟨h1, by simpa using h2⟩
  · rintro ⟨h1, h2⟩
    exact ⟨h1, by simpa using h2⟩

theorem liveValueAt_eq (b : Board) (p : CardId) (id : CardId)
    (hg : b.grid p = some id) (hrm : (b.cards id).removed = false) :
    b.liveValueAt p = some ((b.cards id).value) := by
  unfold Board.liveValueAt
  rw [hg]
  dsimp only
  rw [if_neg (by simp [hrm])]

/-- A precise characterization of one rewrite-loop cell visit. -/
theorem applyAt_cards_char (b : Board) (v w : String) (pos : CardId) (j : CardId) :
    (b.applyAt v w pos).cards j =
      if b.grid pos = some j ∧ (b.cards j).removed = false ∧ (b.cards j).value = v
      then { b.cards j with value := w } else b.cards j := by
  unfold Board.applyAt
  cases hg : b.grid pos with
  | none =>
    rw [if_neg (by rintro ⟨h1, _, _⟩; cases h1)]
  | some id =>
    dsimp only
    by_cases hrm : (b.cards id).removed
    · rw [if_pos hrm, if_neg]
      rintro ⟨h1, h2, _⟩
      injection h1 with h1
      rw [← h1] at h2
      rw [hrm] at h2
      cases h2
    · rw [if_neg hrm]
      by_cases hv : (b.cards id).value = v
      · rw [if_pos hv, updateCard_cards]
        by_cases hj : j = id
        · subst hj
          rw [if_pos rfl, if_pos ⟨rfl, by simpa using hrm, hv⟩]
        · rw [if_neg hj, if_neg]
          rintro ⟨h1, _, _⟩
          injection h1 with h1
          exact hj h1.symm
      · rw [if_neg hv, if_neg]
        rintro ⟨h1, _, hv'⟩
        injection h1 with h1
        rw [h1] at hv
        exact hv hv'

theorem applyPositions_value_stable (v w : String) :
    ∀ (ps : List CardId) (b : Board) (id : CardId),
      (b.cards id).value = w →
      ((applyPositions v w ps b).cards id).value = w
  | [], _, _, h => h
  | pos :: ps, b, id, h => by
    rw [applyPositions]
    apply applyPositions_value_stable v w ps
    rw [applyAt_cards_char]
    split
    · rfl
    · exact h

theorem applyPositions_value_of_ne (v w : String) :
    ∀ (ps : List CardId) (b : Board) (id : CardId),
      (b.cards id).value ≠ v →
      ((applyPositions v w ps b).cards id).value = (b.cards id).value
  | [], _, _, _ => rfl
  | pos :: ps, b, id, hne => by
    have hcd : (b.applyAt v w pos).cards id = b.cards id := by
      rw [applyAt_cards_char, if_neg (by rintro ⟨_, _, hv⟩; exact hne hv)]
    rw [applyPositions, applyPositions_value_of_ne v w ps _ id (by rw [hcd]; exact hne), hcd]

theorem applyPositions_card_untouched (v w : String) :
    ∀ (ps : List CardId) (b : Board) (id : CardId),
      (∀ p ∈ ps, b.grid p ≠ some id) →
      ((applyPositions v w ps b).cards id) = b.cards id
  | [], _, _, _ => rfl
  | pos :: ps, b, id, h => by
    have hcd : (b.applyAt v w pos).cards id = b.cards id := by
      rw [applyAt_cards_char,
        if_neg (by rintro ⟨h1, _, _⟩; exact h pos (List.mem_cons_self pos ps) h1)]
    rw [applyPositions, applyPositions_card_untouched v w ps _ id ?_, hcd]
    intro p hp
    rw [applyAt_grid]
    exact h p (List.mem_cons_of_mem _ hp)

theorem applyPositions_value_rewrites (v w : String) :
    ∀ (ps : List CardId) (b : Board) (id : CardId) (p0 : CardId),
      p0 ∈ ps → b.grid p0 = some id →
      (b.cards id).removed = false → (b.cards id).value = v →
      ((applyPositions v w ps b).cards id).value = w := by
  intro ps
  induction ps with
  | nil => intro b id p0 h; cases h
  | cons pos ps ih =>
    intro b id p0 hmem hg hrm hv
    rw [applyPositions]
    by_cases hcond : b.grid pos = some id ∧ (b.cards id).removed = false ∧
        (b.cards id).value = v
    · apply applyPositions_value_stable
      rw [applyAt_cards_char, if_pos hcond]
    · have hp0 : p0 ∈ ps := by
        rcases List.mem_cons.mp hmem with rfl | h
        · exact absurd ⟨hg, hrm, hv⟩ hcond
        · exact h
      have hcd : (b.applyAt v w pos).cards id = b.cards id := by
        rw [applyAt_cards_char, if_neg hcond]
      exact ih _ id p0 hp0 (by rw [applyAt_grid]; exact hg) (by rw [hcd]; exact hrm)
        (by rw [hcd]; exact hv)

theorem mapApply_card_untouched (b0 : Board) (f : String → Except String String)
    (id : CardId) :
    ∀ (vs : List String) (b : Board),
      (∀ u ∈ vs, ∀ p ∈ b0.positionsOf u, b.grid p ≠ some id) →
      (mapApply b0 f vs b).cards id = b.cards id
  | [], _, _ => rfl
  | v :: vs, b, h => by
    rw [mapApply]
    cases hfv : f v with
    | ok w =>
      dsimp only
      rw [mapApply_card_untouched b0 f id vs _ ?_,
        applyPositions_card_untouched v w _ b id (h v (List.mem_cons_self v vs))]
      intro u hu p hp
      rw [applyPositions_grid]
      exact h u (List.mem_cons_of_mem _ hu) p hp
    | error e =>
      dsimp only
      exact mapApply_card_untouched b0 f id vs b
        (fun u hu p hp => h u (List.mem_cons_of_mem _ hu) p hp)

theorem mapApply_value_ok (b0 : Board) (f : String → Except String String)
    (id : CardId) (w : String)
    (hlive : ∃ p, p ∈ b0.rowMajor ∧ b0.grid p = some id)
    (hrm : (b0.cards id).removed = false)
    (hf : f ((b0.cards id).value) = .ok w) :
    ∀ (vs : List String) (b : Board), vs.Nodup →
      b.grid = b0.grid →
      (∀ j, (b.cards j).removed = (b0.cards j).removed) →
      (∀ j, (b0.cards j).value ∈ vs → (b.cards j).value = (b0.cards j).value) →
      (b0.cards id).value ∈ vs →
      ((mapApply b0 f vs b).cards id).value = w := by
  intro vs
  induction vs with
  | nil => intro b _ _ _ _ hmem; simp at hmem
  | cons v vs ih =>
    intro b hnd hgrid hrem hunproc hmem
    obtain ⟨hvnotin, hndtail⟩ := List.nodup_cons.mp hnd
    rw [mapApply]
    by_cases hval : (b0.cards id).value = v
    · rw [← hval, hf]
      dsimp only
      obtain ⟨p, hpmem, hpg⟩ := hlive
      have hbrm : (b.cards id).removed = false := by rw [hrem id]; exact hrm
      have hbval : (b.cards id).value = (b0.cards id).value := hunproc id hmem
      have hrewritten : ((applyPositions ((b0.cards id).value) w
          (b0.positionsOf ((b0.cards id).value)) b).cards id).value = w := by
        apply applyPositions_value_rewrites _ w _ b id p ?_ ?_ hbrm hbval
        · rw [mem_positionsOf]
          exact ⟨hpmem, liveValueAt_eq b0 p id hpg hrm⟩
        · rw [hgrid]
          exact hpg
      rw [mapApply_card_untouched]
      · exact hrewritten
      · intro u hu q hq hgq
        rw [applyPositions_grid, hgrid] at hgq
        have hlq : b0.liveValueAt q = some u := (mem_positionsOf b0 u q |>.mp hq).2
        rw [liveValueAt_eq b0 q id hgq hrm] at hlq
        injection hlq with hlq
        rw [← hval] at hvnotin
        exact hvnotin (hlq ▸ hu)
    · have hmem' : (b0.cards id).value ∈ vs := by
        rcases List.mem_cons.mp hmem with h | h
        · exact absurd h hval
        · exact h
      cases hfv : f v with
      | ok w' =>
        dsimp only
        apply ih _ hndtail
        · rw [applyPositions_grid]
          exact hgrid
        · intro j
          rw [(applyPositions_sameButValue v w' _ b j).2.2.2.1]
          exact hrem j
        · intro j hj
          have hjne : (b.cards j).value ≠ v := by
            rw [hunproc j (List.mem_cons_of_mem _ hj)]
            intro hsame
            exact hvnotin (hsame ▸ hj)
          rw [applyPositions_value_of_ne v w' _ b j hjne]
          exact hunproc j (List.mem_cons_of_mem _ hj)
        · exact hmem'
      | error e =>
        dsimp only
        exact ih b hndtail hgrid hrem
          (fun j hj => hunproc j (List.mem_cons_of_mem _ hj)) hmem'

/-- C2: for a well-formed player id, `map` evaluates the transform on exactly
the duplicate-free list of values present among live cards (once per distinct
value); for every live cell whose value's transform succeeded, the cell's
card is rewritten to the transform's result in the returned state — also when
some other transform failed, since rewrites commit before the first failure
in snapshot order is raised, with no rollback. -/
theorem map_transform_semantics (b : Board) (pid : String)
    (f : String → Except String String) (hv : isValidId pid = true) :
    (b.distinctValues.Nodup ∧
      (∀ v, v ∈ b.distinctValues ↔ ∃ p, p ∈ b.rowMajor ∧ b.liveValueAt p = some v)) ∧
    (∀ (p id : CardId) (w : String),
      p ∈ b.rowMajor → b.grid p = some id → (b.cards id).removed = false →
      f ((b.cards id).value) = .ok w →
      (((b.map pid f).1).cards id).value = w) ∧
    (∀ e, firstFailure f b.distinctValues = some e →
      (b.map pid f).2 = Except.error (MapErr.transformFailed e)) := by
  refine ⟨⟨distinctValues_nodup b, fun v => mem_distinctValues b v⟩, ?_, ?_⟩
  · intro p id w hp hg hrm hf
    have hmem : (b.cards id).value ∈ b.distinctValues :=
      (mem_distinctValues _ _).mpr ⟨p, hp, liveValueAt_eq b p id hg hrm⟩
    have hne : b.distinctValues ≠ [] := by
      intro hempty
      rw [hempty] at hmem
      cases hmem
    have hval : ((mapApply b f b.distinctValues b).cards id).value = w :=
      mapApply_value_ok b f id w ⟨p, hp, hg⟩ hrm hf b.distinctValues b
        (distinctValues_nodup b) rfl (fun j => rfl) (fun j hj => rfl) hmem
    unfold Board.map
    rw [if_neg (by simp [hv])]
    dsimp only
    rw [if_neg hne]
    cases hff : firstFailure f b.distinctValues with
    | some e =>
      dsimp only
      exact hval
    | none =>
      dsimp only
      rw [notifyChange_cards]
      exact hval
  · intro e he
    have hne : b.distinctValues ≠ [] := by
      intro hempty
      rw [hempty, firstFailure] at he
      cases he
    unfold Board.map
    rw [if_neg (by simp [hv])]
    dsimp only
    rw [if_neg hne, he]

/-- A transform succeeding on `"A"` and failing on every other value. -/
def mapTestF : String → Except String String :=
  fun v => if v = "A" then Except.ok "a" else Except.error "boom"

/-- Witness for C2 on the demonstration board: the first failure is raised
while the successful rewrite of `"A"` stays committed. -/
theorem map_transform_semantics_witness :
    (demoBoard.map "p1" mapTestF).2 = Except.error (MapErr.transformFailed "boom") ∧
    (((demoBoard.map "p1" mapTestF).1).cards (0, 0)).value = "a" := by
  have h := map_transform_semantics demoBoard "p1" mapTestF (by decide)
  exact ⟨h.2.2 "boom" (by decide),
    h.2.1 (0, 0) (0, 0) "a" (by decide) (by decide) (by decide) rfl⟩
